import Mathlib

/-!
Verification of the event-generation and bulk-load pipeline
(`generator`/`loader`/`model` packages of the repository).

The Go sources are embedded shallowly:

* `model.Event` becomes the structure `Event`; Go `time.Time` values become
  `GoTime` (civil components plus a zone offset in seconds east of UTC).
* The process-wide `math/rand` source becomes an explicit tape
  `Nat → Nat` together with a position; a draw `rand.Intn(n)` at position
  `p` reads `tape p % n` and advances the position.  `uuid.New()`'s
  separate random source becomes a byte tape `Nat → Nat`.
* Go's `time.Date` normalization (out-of-range day values roll over into
  the neighbouring month, as documented for `time.Date`) is embedded via
  the standard days-from-civil / civil-from-days calendar arithmetic.
* JSON documents are embedded as a `Json` value tree; `json.Marshal` of an
  event slice and `json.Unmarshal` back are embedded field-for-field, with
  `time.Time`'s RFC 3339 text encoding spelled out at character level.
* The loader's `main`/`load` (one transaction, insert loop, rollback on the
  first failing insert, commit afterwards with its error discarded) becomes
  `runLoader`/`loaderMain` over an abstract store and insert behaviour.
-/

/-! ## JSON value trees -/

/-- A JSON document, as produced by `encoding/json`. -/
inductive Json where
  | null : Json
  | bool : Bool → Json
  | num : Int → Json
  | str : String → Json
  | arr : List Json → Json
  | obj : List (String × Json) → Json
deriving Repr

/-! ## Time values

Go `time.Time` restricted to what the repository uses: a civil date-time
(year, month, day, hour, min, sec, nsec) plus the zone offset in seconds
east of UTC (`time.UTC` has offset 0). -/

/-- Embedding of a Go `time.Time` value. -/
structure GoTime where
  year : Int
  month : Int
  day : Int
  hour : Int
  min : Int
  sec : Int
  nsec : Int
  offset : Int
deriving DecidableEq, Repr

/-- Days between 1970-01-01 and the civil date `y-m-d` (proleptic Gregorian),
the standard era-based algorithm used by civil-time libraries. -/
def daysFromCivil (y m d : Int) : Int :=
  let y' := if m ≤ 2 then y - 1 else y
  let era := y'.ediv 400
  let yoe := y' - era * 400
  let mp := (m + 9).emod 12
  let doy := (153 * mp + 2).ediv 5 + d - 1
  let doe := yoe * 365 + yoe.ediv 4 - yoe.ediv 100 + doy
  era * 146097 + doe - 719468

/-- Civil date `(y, m, d)` of the day `z` days after 1970-01-01; inverse of
`daysFromCivil`. -/
def civilFromDays (z : Int) : Int × Int × Int :=
  let z' := z + 719468
  let era := z'.ediv 146097
  let doe := z' - era * 146097
  let yoe := (doe - doe.ediv 1460 + doe.ediv 36524 - doe.ediv 146096).ediv 365
  let y := yoe + era * 400
  let doy := doe - (365 * yoe + yoe.ediv 4 - yoe.ediv 100)
  let mp := (5 * doy + 2).ediv 153
  let d := doy - (153 * mp + 2).ediv 5 + 1
  let m := if mp < 10 then mp + 3 else mp - 9
  (if m ≤ 2 then y + 1 else y, m, d)

/-- Embedding of Go `time.Date(year, month, day, hour, min, sec, nsec, time.UTC)`:
arguments outside their usual ranges are normalized (e.g. day 0 is the last
day of the previous month), as `time.Date` documents. -/
def goDate (year month day hour min sec nsec : Int) : GoTime :=
  let m0 := month - 1
  let y := year + m0.ediv 12
  let m := m0.emod 12 + 1
  let sec' := sec + nsec.ediv 1000000000
  let ns := nsec.emod 1000000000
  let total := (daysFromCivil y m 1 + (day - 1)) * 86400 + hour * 3600 + min * 60 + sec'
  let dz := total.ediv 86400
  let rem := total - dz * 86400
  let c := civilFromDays dz
  { year := c.1, month := c.2.1, day := c.2.2,
    hour := rem.ediv 3600, min := (rem.emod 3600).ediv 60, sec := rem.emod 60,
    nsec := ns, offset := 0 }

/-- Embedding of Go `Time.Unix()`: seconds since the Unix epoch of the
absolute instant, independent of how the wall clock is presented. -/
def goUnix (t : GoTime) : Int :=
  daysFromCivil t.year t.month t.day * 86400
    + t.hour * 3600 + t.min * 60 + t.sec - t.offset

/-! ## The data model (`pkg/model/event.go`) -/

/-- Embedding of `model.Event`. -/
structure Event where
  eventSource : Int
  eventRef : String
  eventType : Int
  eventDate : GoTime
  callingNumber : Int
  calledNumber : Int
  location : String
  durationSeconds : Int
  attr1 : String
  attr2 : String
  attr3 : String
  attr4 : String
  attr5 : String
  attr6 : String
  attr7 : String
  attr8 : String
deriving DecidableEq, Repr

/-! ## The random source

`math/rand`'s process-wide source becomes a tape of naturals and a position;
`rand.Intn(n)` / `rand.Int31n(n)` at position `p` yields `tape p % n` (a
value in `[0, n)`) and advances to `p + 1`. -/

/-- Embedding of a `rand.Intn(n)` / `rand.Int31n(n)` draw. -/
def randIntn (tape : Nat → Nat) (n pos : Nat) : Nat × Nat :=
  (tape pos % n, pos + 1)

/-! ## The generator (`pkg/generator/string.go`, `cmd/generator/main.go`) -/

/-- Embedding of `generator.letterRunes` (the 64-character base64 dictionary
variant of `string.go`). -/
def letterRunes : List Char :=
  "ABCDEFGHIJKLMNOPQRSTUVWXYZabcdefghijklmnopqrstuvwxyz0123456789+/".toList

/-- The character-building loop of `generator.RandomString`: draw `k`
characters, each indexed into `letterRunes` by `rand.Int31n(len(letterRunes))`. -/
def randomChars (tape : Nat → Nat) : Nat → Nat → List Char × Nat
  | 0, p => ([], p)
  | k + 1, p =>
    let i := tape p % letterRunes.length
    let rest := randomChars tape k (p + 1)
    (letterRunes.get ⟨i, Nat.mod_lt _ (by decide)⟩ :: rest.1, rest.2)

/-- Embedding of `generator.RandomString`: `strLen := rand.Int31n(40)`, then
the loop `for i := 0; i <= int(strLen); i++` appends one random character
per iteration (so the result has `strLen + 1` characters). -/
def RandomString (tape : Nat → Nat) (pos : Nat) : String × Nat :=
  let l := randIntn tape 40 pos
  let cs := randomChars tape (l.1 + 1) l.2
  (String.mk cs.1, cs.2)

/-- Embedding of `generator.RandomDate`:
`time.Date(rand.Intn(11)+2010, time.Month(rand.Intn(12)+1), rand.Intn(28),
rand.Intn(23), rand.Intn(59), rand.Intn(59), rand.Intn(59), time.UTC)`. -/
def RandomDate (tape : Nat → Nat) (pos : Nat) : GoTime × Nat :=
  let y := randIntn tape 11 pos
  let mo := randIntn tape 12 y.2
  let d := randIntn tape 28 mo.2
  let h := randIntn tape 23 d.2
  let mi := randIntn tape 59 h.2
  let s := randIntn tape 59 mi.2
  let ns := randIntn tape 59 s.2
  (goDate (y.1 + 2010) (mo.1 + 1) d.1 h.1 mi.1 s.1 ns.1, ns.2)

/-- Lower-case hexadecimal digit, as used by `uuid.UUID.String()`. -/
def hexDigitChar (n : Nat) : Char :=
  if n < 10 then Char.ofNat (48 + n) else Char.ofNat (87 + n)

/-- Two lower-case hex digits of one byte. -/
def hexByte (b : Nat) : List Char :=
  [hexDigitChar (b / 16 % 16), hexDigitChar (b % 16)]

/-- Modelled from the documented behaviour of the external `github.com/google/uuid`
dependency: `uuid.New().String()` draws 16 random bytes, forces the version-4
bits of byte 6 (`b[6] = b[6]&0x0f | 0x40`) and the variant bits of byte 8
(`b[8] = b[8]&0x3f | 0x80`), and renders them as the 36-character hyphenated
hex form `xxxxxxxx-xxxx-xxxx-xxxx-xxxxxxxxxxxx`. -/
def uuidString (b : Nat → Nat) : String :=
  String.mk
    (hexByte (b 0) ++ hexByte (b 1) ++ hexByte (b 2) ++ hexByte (b 3)
      ++ '-' :: (hexByte (b 4) ++ hexByte (b 5))
      ++ '-' :: (hexByte (b 6 % 16 + 64) ++ hexByte (b 7))
      ++ '-' :: (hexByte (b 8 % 64 + 128) ++ hexByte (b 9))
      ++ '-' :: (hexByte (b 10) ++ hexByte (b 11) ++ hexByte (b 12)
        ++ hexByte (b 13) ++ hexByte (b 14) ++ hexByte (b 15)))

/-- Embedding of the generator's `generateEventType`:
`r := rand.Intn(100)`, then `r < 15 → 1`, `r < 35 → 2`, `r < 55 → 3`,
otherwise `5`. -/
def generateEventType (tape : Nat → Nat) (pos : Nat) : Nat × Nat :=
  let r := tape pos % 100
  (if r < 15 then 1 else if r < 35 then 2 else if r < 55 then 3 else 5, pos + 1)

/-- Embedding of the generator's `generateEvent`: fields are filled in the
struct-literal order of the source, drawing from the shared `math/rand` tape
(`tape`, starting at `pos`) and from the uuid library's byte source `ub`. -/
def generateEvent (tape ub : Nat → Nat) (pos : Nat) : Event × Nat :=
  let src := randIntn tape 88005553535 pos
  let ref := uuidString ub
  let ty := generateEventType tape src.2
  let date := RandomDate tape ty.2
  let calling := randIntn tape 88005553535 date.2
  let called := randIntn tape 88005553535 calling.2
  let loc := RandomString tape called.2
  let dur := randIntn tape 100 loc.2
  let a1 := RandomString tape dur.2
  let a2 := RandomString tape a1.2
  let a3 := RandomString tape a2.2
  let a4 := RandomString tape a3.2
  let a5 := RandomString tape a4.2
  let a6 := RandomString tape a5.2
  let a7 := RandomString tape a6.2
  let a8 := RandomString tape a7.2
  ({ eventSource := src.1,
     eventRef := ref,
     eventType := ty.1,
     eventDate := date.1,
     callingNumber := calling.1,
     calledNumber := called.1,
     location := loc.1,
     durationSeconds := dur.1,
     attr1 := a1.1, attr2 := a2.1, attr3 := a3.1, attr4 := a4.1,
     attr5 := a5.1, attr6 := a6.1, attr7 := a7.1, attr8 := a8.1 }, a8.2)

/-! ## RFC 3339 text encoding of `time.Time`

`time.Time.MarshalJSON` renders the time in the RFC 3339 layout with
nanoseconds (trailing zeros of the fractional second dropped, the fraction
omitted when zero, `Z` for UTC); `json.Unmarshal` parses it back with
`time.Parse`, validating component ranges. -/

/-- The decimal digit character for `d < 10`. -/
def digitChar (d : Nat) : Char := Char.ofNat (48 + d)

/-- Numeric value of a decimal digit character. -/
def digitVal (c : Char) : Nat := c.toNat - 48

/-- Two-digit zero-padded decimal rendering. -/
def pad2 (n : Nat) : List Char := [digitChar (n / 10 % 10), digitChar (n % 10)]

/-- Four-digit zero-padded decimal rendering. -/
def pad4 (n : Nat) : List Char :=
  [digitChar (n / 1000 % 10), digitChar (n / 100 % 10), digitChar (n / 10 % 10),
    digitChar (n % 10)]

/-- Nine-digit zero-padded decimal rendering (the nanosecond field). -/
def pad9 (n : Nat) : List Char :=
  [digitChar (n / 100000000 % 10), digitChar (n / 10000000 % 10),
    digitChar (n / 1000000 % 10), digitChar (n / 100000 % 10),
    digitChar (n / 10000 % 10), digitChar (n / 1000 % 10),
    digitChar (n / 100 % 10), digitChar (n / 10 % 10), digitChar (n % 10)]

/-- Value of a list of decimal digit characters, most significant first. -/
def digitsVal (l : List Char) : Nat := l.foldl (fun a c => a * 10 + digitVal c) 0

/-- Drop the trailing `'0'` characters (RFC 3339 fractional seconds are
rendered without trailing zeros). -/
def dropTrailingZeroChars (l : List Char) : List Char :=
  (l.reverse.dropWhile (fun c => c == '0')).reverse

/-- The fractional-second characters for a nanosecond count: nothing when
zero, otherwise a dot and the nine digits with trailing zeros dropped. -/
def fracChars (n : Nat) : List Char :=
  if n = 0 then [] else '.' :: dropTrailingZeroChars (pad9 n)

/-- The zone suffix: `Z` for UTC, otherwise a signed `hh:mm` offset. -/
def zoneChars (off : Int) : List Char :=
  if off = 0 then ['Z']
  else
    (if 0 < off then '+' else '-')
      :: (pad2 (off.natAbs / 3600) ++ ':' :: pad2 (off.natAbs % 3600 / 60))

/-- The RFC 3339 rendering of a time value, as `time.Time.MarshalJSON`
produces it (without the surrounding JSON quotes, which the `Json.str`
constructor accounts for). -/
def formatRFC3339 (t : GoTime) : String :=
  String.mk
    (pad4 t.year.toNat ++ '-' :: pad2 t.month.toNat ++ '-' :: pad2 t.day.toNat
      ++ 'T' :: pad2 t.hour.toNat ++ ':' :: pad2 t.min.toNat ++ ':' :: pad2 t.sec.toNat
      ++ fracChars t.nsec.toNat ++ zoneChars t.offset)

/-- Embedding of Go's leap-year rule (`isLeap` in `time`). -/
def isLeapYear (y : Int) : Bool :=
  y.emod 4 == 0 && (!(y.emod 100 == 0) || y.emod 400 == 0)

/-- Days in a civil month, as `time.Parse` uses to validate the day. -/
def daysInMonth (y m : Int) : Int :=
  if m = 2 then (if isLeapYear y then 29 else 28)
  else if m = 4 ∨ m = 6 ∨ m = 9 ∨ m = 11 then 30
  else 31

/-- Parse the zone suffix of an RFC 3339 time. -/
def parseZone : List Char → Option Int
  | ['Z'] => some 0
  | ['+', a, b, ':', c, d] =>
    if a.isDigit && b.isDigit && c.isDigit && d.isDigit then
      some (((digitVal a * 10 + digitVal b) * 3600 + (digitVal c * 10 + digitVal d) * 60 : Nat))
    else none
  | ['-', a, b, ':', c, d] =>
    if a.isDigit && b.isDigit && c.isDigit && d.isDigit then
      some (-((digitVal a * 10 + digitVal b) * 3600 + (digitVal c * 10 + digitVal d) * 60 : Nat))
    else none
  | _ => none

/-- Parse the optional fractional second and the zone suffix, giving the
nanosecond count and the offset. -/
def parseFracZone : List Char → Option (Nat × Int)
  | '.' :: r =>
    let ds := r.takeWhile (fun c => c.isDigit)
    let r' := r.dropWhile (fun c => c.isDigit)
    if ds.isEmpty || 9 < ds.length then none
    else
      match parseZone r' with
      | some off => some (digitsVal ds * 10 ^ (9 - ds.length), off)
      | none => none
  | r =>
    match parseZone r with
    | some off => some (0, off)
    | none => none

/-- Embedding of `time.Parse` on the RFC 3339 layout, at the level of the
character list. -/
def parseRFC3339Chars : List Char → Option GoTime
  | y1 :: y2 :: y3 :: y4 :: '-' :: m1 :: m2 :: '-' :: d1 :: d2 :: 'T'
      :: h1 :: h2 :: ':' :: mi1 :: mi2 :: ':' :: s1 :: s2 :: rest =>
    if y1.isDigit && y2.isDigit && y3.isDigit && y4.isDigit
        && m1.isDigit && m2.isDigit && d1.isDigit && d2.isDigit
        && h1.isDigit && h2.isDigit && mi1.isDigit && mi2.isDigit
        && s1.isDigit && s2.isDigit then
      match parseFracZone rest with
      | some fz =>
        let yr : Int := (((digitVal y1 * 10 + digitVal y2) * 10 + digitVal y3) * 10
          + digitVal y4 : Nat)
        let mo : Int := (digitVal m1 * 10 + digitVal m2 : Nat)
        let dy : Int := (digitVal d1 * 10 + digitVal d2 : Nat)
        let hh : Int := (digitVal h1 * 10 + digitVal h2 : Nat)
        let mm : Int := (digitVal mi1 * 10 + digitVal mi2 : Nat)
        let ss : Int := (digitVal s1 * 10 + digitVal s2 : Nat)
        if 1 ≤ mo ∧ mo ≤ 12 ∧ 1 ≤ dy ∧ dy ≤ daysInMonth yr mo
            ∧ hh < 24 ∧ mm < 60 ∧ ss < 60 then
          some ⟨yr, mo, dy, hh, mm, ss, (fz.1 : Nat), fz.2⟩
        else none
      | none => none
    else none
  | _ => none

/-- Embedding of `time.Parse` on the RFC 3339 layout, as `json.Unmarshal`
applies it to the `event_date` field. -/
def parseRFC3339 (s : String) : Option GoTime :=
  parseRFC3339Chars s.toList

/-! ## JSON encoding and decoding of events

`json.Marshal` renders an `Event` as an object whose keys follow the struct
tags in field order; `json.Unmarshal` fills each field by key, leaving a
missing or `null` field at its zero value and rejecting a value of the
wrong shape. -/

/-- The JSON object produced by `json.Marshal` for one event. -/
def encodeEvent (e : Event) : Json :=
  Json.obj
    [("event_source", Json.num e.eventSource),
     ("event_ref", Json.str e.eventRef),
     ("event_type", Json.num e.eventType),
     ("event_date", Json.str (formatRFC3339 e.eventDate)),
     ("calling_number", Json.num e.callingNumber),
     ("called_number", Json.num e.calledNumber),
     ("location", Json.str e.location),
     ("duration_seconds", Json.num e.durationSeconds),
     ("attr_1", Json.str e.attr1),
     ("attr_2", Json.str e.attr2),
     ("attr_3", Json.str e.attr3),
     ("attr_4", Json.str e.attr4),
     ("attr_5", Json.str e.attr5),
     ("attr_6", Json.str e.attr6),
     ("attr_7", Json.str e.attr7),
     ("attr_8", Json.str e.attr8)]

/-- Embedding of the generator's `json.Marshal(events)`. -/
def jsonMarshalEvents (es : List Event) : Json := Json.arr (es.map encodeEvent)

/-- First binding of a key in a JSON object. -/
def jlookup (key : String) : List (String × Json) → Option Json
  | [] => none
  | f :: r => if f.1 = key then some f.2 else jlookup key r

/-- Decode an integer field: missing or `null` is the zero value, a number is
itself, anything else is a decode error. -/
def getIntField (fs : List (String × Json)) (key : String) : Option Int :=
  match jlookup key fs with
  | none => some 0
  | some Json.null => some 0
  | some (Json.num n) => some n
  | some _ => none

/-- Decode a string field: missing or `null` is the zero value. -/
def getStrField (fs : List (String × Json)) (key : String) : Option String :=
  match jlookup key fs with
  | none => some ""
  | some Json.null => some ""
  | some (Json.str s) => some s
  | some _ => none

/-- Decode a `time.Time` field: missing or `null` is the zero time, a string
is parsed with the RFC 3339 layout. -/
def getTimeField (fs : List (String × Json)) (key : String) : Option GoTime :=
  match jlookup key fs with
  | none => some ⟨1, 1, 1, 0, 0, 0, 0, 0⟩
  | some Json.null => some ⟨1, 1, 1, 0, 0, 0, 0, 0⟩
  | some (Json.str s) => parseRFC3339 s
  | some _ => none

/-- Embedding of `json.Unmarshal` into one `model.Event`. -/
def decodeEvent : Json → Option Event
  | Json.obj fs => do
    let src ← getIntField fs "event_source"
    let ref ← getStrField fs "event_ref"
    let ty ← getIntField fs "event_type"
    let dt ← getTimeField fs "event_date"
    let calling ← getIntField fs "calling_number"
    let called ← getIntField fs "called_number"
    let loc ← getStrField fs "location"
    let dur ← getIntField fs "duration_seconds"
    let a1 ← getStrField fs "attr_1"
    let a2 ← getStrField fs "attr_2"
    let a3 ← getStrField fs "attr_3"
    let a4 ← getStrField fs "attr_4"
    let a5 ← getStrField fs "attr_5"
    let a6 ← getStrField fs "attr_6"
    let a7 ← getStrField fs "attr_7"
    let a8 ← getStrField fs "attr_8"
    pure ⟨src, ref, ty, dt, calling, called, loc, dur, a1, a2, a3, a4, a5, a6, a7, a8⟩
  | _ => none

/-- Decode each element of a JSON array of events. -/
def decodeEventList : List Json → Option (List Event)
  | [] => some []
  | j :: r =>
    match decodeEvent j, decodeEventList r with
    | some e, some es => some (e :: es)
    | _, _ => none

/-- Embedding of the loader's `json.Unmarshal(eventRaw, &events)`: a JSON
array yields the decoded slice, JSON `null` yields the nil slice, anything
else is a decode error. -/
def jsonUnmarshalEvents : Json → Option (List Event)
  | Json.null => some []
  | Json.arr js => decodeEventList js
  | _ => none

/-! ## The loader (`cmd/loader/main.go`) -/

/-- Embedding of `timeToTimestampNoTz`:
`fmt.Sprintf("to_timestamp(cast(%d as bigint))::date", t.Unix())`. -/
def timeToTimestampNoTz (t : GoTime) : String :=
  "to_timestamp(cast(" ++ toString (goUnix t) ++ " as bigint))::date"

/-- The insert statement template `q` of `load` (verbatim). -/
def loadQueryFmt : String :=
  "\ninsert into event(event_source, event_ref, event_type, event_date, calling_number, called_number, location,\n                  duration_seconds, attr_1, attr_2, attr_3, attr_4, attr_5, attr_6, attr_7, attr_8)\nvalues ($1, $2, $3, %s, $4, $5, $6, $7, $8, $9, $10, $11, $12, $13, $14, $15)\n"

/-- Substitute the first `%s` of a format string, as `fmt.Sprintf` does for
the single verb of `load`'s query. -/
def substPercentS : List Char → List Char → List Char
  | [], _ => []
  | '%' :: 's' :: r, a => a ++ r
  | c :: r, a => c :: substPercentS r a

/-- `fmt.Sprintf` with one `%s` verb. -/
def sprintfS (f a : String) : String := String.mk (substPercentS f.toList a.toList)

/-- The SQL text `load` executes for one event:
`fmt.Sprintf(q, timeToTimestampNoTz(&event.EventDate))`. -/
def loadQuery (e : Event) : String :=
  sprintfS loadQueryFmt (timeToTimestampNoTz e.eventDate)

/-- The insert loop of the loader's `main`: run the per-event insert on the
transaction's working state, stopping at the first failure.  The insert
behaviour `ins` abstracts the database's response to `tx.Exec` of
`loadQuery`. -/
def insertAll (ins : Event → List Event → Option (List Event)) :
    List Event → List Event → Option (List Event)
  | [], s => some s
  | e :: es, s =>
    match ins e s with
    | none => none
    | some s' => insertAll ins es s'

/-- Observable outcome of one run of the loader's transaction loop. -/
structure LoadRun where
  committed : List Event
  rollbackCalled : Bool
  commitCalled : Bool
  printedSuccess : Bool
  exitOk : Bool
deriving Repr, DecidableEq

/-- Embedding of the loader `main`'s transaction phase: insert every event
inside the one transaction; on the first failure call `tx.Rollback()` and
panic; otherwise print the success report and call `tx.Commit()`, whose
error result is discarded (`commitOk` is the database's commit outcome: a
failed commit leaves the store unchanged). -/
def runLoader (ins : Event → List Event → Option (List Event)) (commitOk : Bool)
    (events : List Event) (init : List Event) : LoadRun :=
  match insertAll ins events init with
  | none =>
    { committed := init, rollbackCalled := true, commitCalled := false,
      printedSuccess := false, exitOk := false }
  | some s =>
    { committed := if commitOk then s else init, rollbackCalled := false,
      commitCalled := true, printedSuccess := true, exitOk := true }

/-- Observable outcome of one full run of the loader process. -/
structure MainRun where
  dbOpened : Bool
  txBegun : Bool
  committed : List Event
  printedSuccess : Bool
  exitOk : Bool
deriving Repr, DecidableEq

/-- Embedding of the loader's `main` in source order: validate arguments,
parse the database URL, read the input file, unmarshal it, open the
connection, begin the transaction, then run the insert loop.  Each earlier
failure panics before the later steps happen. -/
def loaderMain (argsOk urlOk : Bool) (fileContent : Option Json)
    (connectOk beginOk : Bool) (ins : Event → List Event → Option (List Event))
    (commitOk : Bool) (init : List Event) : MainRun :=
  if argsOk = false then ⟨false, false, init, false, false⟩
  else if urlOk = false then ⟨false, false, init, false, false⟩
  else
    match fileContent with
    | none => ⟨false, false, init, false, false⟩
    | some doc =>
      match jsonUnmarshalEvents doc with
      | none => ⟨false, false, init, false, false⟩
      | some events =>
        if connectOk = false then ⟨false, false, init, false, false⟩
        else if beginOk = false then ⟨true, false, init, false, false⟩
        else
          let r := runLoader ins commitOk events init
          ⟨true, true, r.committed, r.printedSuccess, r.exitOk⟩

/-! ## Domain validity of time values -/

/-- The component ranges a wall-clock value can have after `time.Parse` of an
RFC 3339 UTC timestamp accepts it (year printable in four digits, calendar
day, in-range clock fields, UTC offset). -/
def goTimeValid (t : GoTime) : Prop :=
  1 ≤ t.year ∧ t.year ≤ 9999 ∧ 1 ≤ t.month ∧ t.month ≤ 12 ∧
  1 ≤ t.day ∧ t.day ≤ daysInMonth t.year t.month ∧
  0 ≤ t.hour ∧ t.hour < 24 ∧ 0 ≤ t.min ∧ t.min < 60 ∧ 0 ≤ t.sec ∧ t.sec < 60 ∧
  0 ≤ t.nsec ∧ t.nsec < 1000000000 ∧ t.offset = 0

instance (t : GoTime) : Decidable (goTimeValid t) := by
  unfold goTimeValid; infer_instance

/-! ## Shared concrete inputs for witnesses -/

/-- A concrete event used as a witness input. -/
def sampleEvent : Event :=
  { eventSource := 1, eventRef := "ref-1", eventType := 1,
    eventDate := ⟨1970, 1, 1, 0, 0, 0, 0, 0⟩,
    callingNumber := 2, calledNumber := 3, location := "loc", durationSeconds := 4,
    attr1 := "a", attr2 := "b", attr3 := "c", attr4 := "d",
    attr5 := "e", attr6 := "f", attr7 := "g", attr8 := "h" }

/-! ## C1: the event-type distribution -/

/-- C1: `generateEventType` draws a uniform integer `r` in `[0,100)` and
returns exactly 1 on `[0,15)`, 2 on `[15,35)`, 3 on `[35,55)` and 5 on
`[55,100)`; every possible result is one of 1, 2, 3, 5 and never 4. -/
theorem generateEventType_distribution (tape : Nat → Nat) (pos : Nat) :
    tape pos % 100 < 100 ∧
    (tape pos % 100 < 15 → (generateEventType tape pos).1 = 1) ∧
    (15 ≤ tape pos % 100 ∧ tape pos % 100 < 35 → (generateEventType tape pos).1 = 2) ∧
    (35 ≤ tape pos % 100 ∧ tape pos % 100 < 55 → (generateEventType tape pos).1 = 3) ∧
    (55 ≤ tape pos % 100 → (generateEventType tape pos).1 = 5) ∧
    ((generateEventType tape pos).1 = 1 ∨ (generateEventType tape pos).1 = 2 ∨
      (generateEventType tape pos).1 = 3 ∨ (generateEventType tape pos).1 = 5) ∧
    (generateEventType tape pos).1 ≠ 4 := by
  simp only [generateEventType]
  split_ifs <;> omega

/-- C1 witness: the draw 57 lies in `[55,100)` and is mapped to type 5. -/
theorem generateEventType_distribution_witness :
    55 ≤ (fun _ : Nat => 57) 0 % 100 ∧ (generateEventType (fun _ => 57) 0).1 = 5 :=
  ⟨by decide, (generateEventType_distribution (fun _ => 57) 0).2.2.2.2.1 (by decide)⟩

/-! ## C2 / C10: atomicity of the load and the discarded commit error -/

/-- C2: whenever some insert of the batch fails, the loader rolls the
transaction back — the committed store is exactly the initial one, the run
exits with a failure and commit was never called; and commit is called only
when every insert succeeded. -/
theorem runLoader_atomic (ins : Event → List Event → Option (List Event))
    (commitOk : Bool) (events init : List Event) :
    (insertAll ins events init = none →
      (runLoader ins commitOk events init).committed = init ∧
      (runLoader ins commitOk events init).rollbackCalled = true ∧
      (runLoader ins commitOk events init).commitCalled = false ∧
      (runLoader ins commitOk events init).printedSuccess = false ∧
      (runLoader ins commitOk events init).exitOk = false) ∧
    ((runLoader ins commitOk events init).commitCalled = true →
      ∃ s, insertAll ins events init = some s) := by
  unfold runLoader
  cases h : insertAll ins events init <;> simp

/-- C2 witness: a batch of one event whose insert fails is fully rolled
back and the run fails. -/
theorem runLoader_atomic_witness :
    (runLoader (fun _ _ => none) true [sampleEvent] []).committed = [] ∧
    (runLoader (fun _ _ => none) true [sampleEvent] []).exitOk = false := by
  have h := (runLoader_atomic (fun _ _ => none) true [sampleEvent] []).1 rfl
  exact ⟨h.1, h.2.2.2.2⟩

/-- C10: when every insert succeeds the loader prints its success report and
exits successfully whether or not the final commit succeeds — `tx.Commit()`'s
error result is discarded, so a failed commit is indistinguishable from a
successful load in the process's observable outcome. -/
theorem runLoader_commit_error_discarded
    (ins : Event → List Event → Option (List Event)) (events init s : List Event)
    (h : insertAll ins events init = some s) :
    (runLoader ins true events init).printedSuccess = true ∧
    (runLoader ins true events init).exitOk = true ∧
    (runLoader ins false events init).printedSuccess = true ∧
    (runLoader ins false events init).exitOk = true := by
  unfold runLoader
  rw [h]
  simp

/-- C10 witness: a batch of one event whose insert succeeds reports success
both when the commit succeeds and when it fails. -/
theorem runLoader_commit_error_discarded_witness :
    (runLoader (fun _ s => some s) true [sampleEvent] []).exitOk = true ∧
    (runLoader (fun _ s => some s) false [sampleEvent] []).exitOk = true := by
  have h := runLoader_commit_error_discarded (fun _ s => some s) [sampleEvent] [] [] rfl
  exact ⟨h.2.1, h.2.2.2⟩

/-! ## C3: decode failure is fatal before any connection -/

/-- C3: when the input file's content does not decode into a list of events,
the loader run ends fatally with no database connection opened, no
transaction begun and the destination store untouched. -/
theorem loaderMain_decode_failure (argsOk urlOk : Bool) (doc : Json)
    (connectOk beginOk : Bool) (ins : Event → List Event → Option (List Event))
    (commitOk : Bool) (init : List Event)
    (h : jsonUnmarshalEvents doc = none) :
    loaderMain argsOk urlOk (some doc) connectOk beginOk ins commitOk init =
      ⟨false, false, init, false, false⟩ := by
  unfold loaderMain
  cases argsOk <;> cases urlOk <;> simp [h]

/-- C3 witness: a JSON document that is a bare string (not an array of
events) is rejected before the connection is opened. -/
theorem loaderMain_decode_failure_witness :
    loaderMain true true (some (Json.str "not events")) true true
      (fun _ s => some s) true [] = ⟨false, false, [], false, false⟩ :=
  loaderMain_decode_failure true true (Json.str "not events") true true
    (fun _ s => some s) true [] rfl

/-! ## C4 / C5: the `RandomDate` day draw leaves the documented window -/

/-- C4: at the all-zero draw sequence, `RandomDate` evaluates
`time.Date(2010, time.January, 0, …)`, and day 0 normalizes to the last day
of the previous month: the produced timestamp is 31 December 2009, outside
the 2010–2020 window the claim (and the function's own doc comment) states. -/
theorem RandomDate_year_below_window :
    (RandomDate (fun _ => 0) 0).1.year = 2009 ∧
    (RandomDate (fun _ => 0) 0).1.month = 12 ∧
    (RandomDate (fun _ => 0) 0).1.day = 31 := by decide

/-- C5: the day draw is `rand.Intn(28)`, i.e. uniform on `[0,28)`, not
`[1,28)`: at the draw sequence month=February, day=0, the raw day draw is 0
(below the claimed lower bound 1) and the normalized date is 31 January
2010, whose day-of-month 31 exceeds the claimed upper bound 27. -/
theorem RandomDate_day_outside_range :
    (fun p => if p = 2 then 0 else if p = 1 then 1 else 0) 2 % 28 = 0 ∧
    (RandomDate (fun p => if p = 2 then 0 else if p = 1 then 1 else 0) 0).1.year = 2010 ∧
    (RandomDate (fun p => if p = 2 then 0 else if p = 1 then 1 else 0) 0).1.month = 1 ∧
    (RandomDate (fun p => if p = 2 then 0 else if p = 1 then 1 else 0) 0).1.day = 31 := by
  decide

/-! ## C6: the `RandomString` alphabet and length -/

/-- C6 counterexample: the claim says every character of a `RandomString`
result is a letter or a digit, but on the draw tape constantly 62 the result
consists of `'+'` characters (index 62 of the base64 dictionary), which are
neither letters nor digits. -/
theorem RandomString_alphanumeric_counterexample :
    ((RandomString (fun _ => 62) 0).1.toList.all (fun c => c.isAlphanum)) = false := by
  decide

/-- Every character drawn by the loop of `RandomString` is a character of
`letterRunes`. -/
theorem randomChars_mem (tape : Nat → Nat) :
    ∀ (k p : Nat), ∀ c ∈ (randomChars tape k p).1, c ∈ letterRunes := by
  intro k
  induction k with
  | zero => intro p c hc; simp [randomChars] at hc
  | succ n ih =>
    intro p c hc
    simp only [randomChars] at hc
    rcases List.mem_cons.1 hc with h | h
    · exact h ▸ List.get_mem _ _ _
    · exact ih (p + 1) c h

/-- The loop of `RandomString` draws exactly `k` characters. -/
theorem randomChars_length (tape : Nat → Nat) :
    ∀ (k p : Nat), (randomChars tape k p).1.length = k := by
  intro k
  induction k with
  | zero => intro p; simp [randomChars]
  | succ n ih => intro p; simp [randomChars, ih]

/-- C6 (amended): every character of a `RandomString` result belongs to the
fixed 64-character base64 dictionary `letterRunes` (letters, digits, `'+'`
and `'/'`), and the length is between 1 and 40 — within the claimed 0-to-40
bound, with 0 in fact unattainable. -/
theorem RandomString_alphabet_length (tape : Nat → Nat) (pos : Nat) :
    1 ≤ (RandomString tape pos).1.length ∧ (RandomString tape pos).1.length ≤ 40 ∧
    ∀ c ∈ (RandomString tape pos).1.toList, c ∈ letterRunes := by
  unfold RandomString
  refine ⟨?_, ?_, ?_⟩
  · simp [randIntn, String.length, randomChars_length]
  · simp only [randIntn, String.length, randomChars_length]
    have : tape pos % 40 < 40 := Nat.mod_lt _ (by decide)
    omega
  · intro c hc
    exact randomChars_mem tape _ _ c hc

/-- C6 witness: on the concrete tape constantly 62 the result has positive
length and its character `'+'` is a dictionary character. -/
theorem RandomString_alphabet_length_witness :
    1 ≤ (RandomString (fun _ => 62) 0).1.length ∧ '+' ∈ letterRunes := by
  have h := RandomString_alphabet_length (fun _ => 62) 0
  exact ⟨h.1, h.2.2 '+' (by decide)⟩

/-! ## C7: every generated event is fully populated -/

/-- The uuid rendering is always 36 characters long. -/
theorem uuidString_length (b : Nat → Nat) : (uuidString b).length = 36 := by
  simp [uuidString, hexByte, String.length]

/-- C7: every event built by `generateEvent` has domain-valid values in the
claim's sense: the duration is non-negative (in fact below 100), the event
reference is a 36-character uuid (never empty), the location and all eight
attribute strings are non-empty, and the type is one of 1, 2, 3, 5. -/
theorem generateEvent_fields_populated (tape ub : Nat → Nat) (pos : Nat) :
    0 ≤ (generateEvent tape ub pos).1.durationSeconds ∧
    (generateEvent tape ub pos).1.durationSeconds < 100 ∧
    (generateEvent tape ub pos).1.eventRef.length = 36 ∧
    1 ≤ (generateEvent tape ub pos).1.location.length ∧
    1 ≤ (generateEvent tape ub pos).1.attr1.length ∧
    1 ≤ (generateEvent tape ub pos).1.attr2.length ∧
    1 ≤ (generateEvent tape ub pos).1.attr3.length ∧
    1 ≤ (generateEvent tape ub pos).1.attr4.length ∧
    1 ≤ (generateEvent tape ub pos).1.attr5.length ∧
    1 ≤ (generateEvent tape ub pos).1.attr6.length ∧
    1 ≤ (generateEvent tape ub pos).1.attr7.length ∧
    1 ≤ (generateEvent tape ub pos).1.attr8.length ∧
    ((generateEvent tape ub pos).1.eventType = 1 ∨
      (generateEvent tape ub pos).1.eventType = 2 ∨
      (generateEvent tape ub pos).1.eventType = 3 ∨
      (generateEvent tape ub pos).1.eventType = 5) := by
  have hlen : ∀ p : Nat, 1 ≤ (RandomString tape p).1.length := by
    intro p
    exact (RandomString_alphabet_length tape p).1
  dsimp only [generateEvent, randIntn]
  refine ⟨?_, ?_, uuidString_length ub, hlen _, hlen _, hlen _, hlen _, hlen _,
    hlen _, hlen _, hlen _, hlen _, ?_⟩
  · exact Int.ofNat_nonneg _
  · exact Int.ofNat_lt.mpr (Nat.mod_lt _ (by decide))
  · dsimp only [generateEventType]
    split_ifs <;> simp

/-- C7 witness at a concrete pair of tapes. -/
theorem generateEvent_fields_populated_witness :
    0 ≤ (generateEvent (fun _ => 3) (fun _ => 7) 0).1.durationSeconds ∧
    (generateEvent (fun _ => 3) (fun _ => 7) 0).1.eventRef.length = 36 ∧
    1 ≤ (generateEvent (fun _ => 3) (fun _ => 7) 0).1.location.length := by
  have h := generateEvent_fields_populated (fun _ => 3) (fun _ => 7) 0
  exact ⟨h.1, h.2.2.1, h.2.2.2.1⟩

/-! ## C9: the epoch-second server-side date expression -/

set_option maxRecDepth 100000 in
/-- C9: for every event, the SQL text the loader executes embeds the event's
timestamp as the server-side expression `to_timestamp(cast(N as bigint))::date`
where `N` is the timestamp's seconds since the Unix epoch — an absolute
instant — so the stored date depends only on that instant, not on any
client-side zone presentation of the same instant. -/
theorem loadQuery_epoch_server_side (e : Event) :
    loadQuery e =
      "\ninsert into event(event_source, event_ref, event_type, event_date, calling_number, called_number, location,\n                  duration_seconds, attr_1, attr_2, attr_3, attr_4, attr_5, attr_6, attr_7, attr_8)\nvalues ($1, $2, $3, "
        ++ timeToTimestampNoTz e.eventDate
        ++ ", $4, $5, $6, $7, $8, $9, $10, $11, $12, $13, $14, $15)\n" ∧
    timeToTimestampNoTz e.eventDate =
      "to_timestamp(cast(" ++ toString (goUnix e.eventDate) ++ " as bigint))::date" ∧
    ∀ t : GoTime, goUnix t = goUnix e.eventDate →
      timeToTimestampNoTz t = timeToTimestampNoTz e.eventDate := by
  refine ⟨rfl, rfl, ?_⟩
  intro t h
  unfold timeToTimestampNoTz
  rw [h]

set_option maxRecDepth 10000 in
/-- C9 witness: two zone presentations of the same instant (midnight UTC and
01:00 at offset +01:00) produce the same SQL expression. -/
theorem loadQuery_epoch_server_side_witness :
    goUnix ⟨1970, 1, 1, 1, 0, 0, 0, 3600⟩ = goUnix sampleEvent.eventDate ∧
    timeToTimestampNoTz ⟨1970, 1, 1, 1, 0, 0, 0, 3600⟩ =
      timeToTimestampNoTz sampleEvent.eventDate := by
  have h := loadQuery_epoch_server_side sampleEvent
  exact ⟨by decide, h.2.2 _ (by decide)⟩

/-! ## C8: serialize-then-deserialize round trip

The supporting lemmas show that the RFC 3339 rendering of a valid time
parses back to the same time, hence that decoding an encoded batch restores
every event field-for-field. -/

/-- A digit character's value inverts `digitChar` below 10. -/
theorem digitVal_digitChar : ∀ d, d < 10 → digitVal (digitChar d) = d := by decide

/-- `digitChar` of a `% 10` value inverts to the same value. -/
theorem digitVal_digitChar_mod (x : Nat) : digitVal (digitChar (x % 10)) = x % 10 :=
  digitVal_digitChar _ (Nat.mod_lt _ (by decide))

/-- `digitChar` below 10 is a digit character. -/
theorem isDigit_digitChar : ∀ d, d < 10 → (digitChar d).isDigit = true := by decide

/-- `digitChar` of a `% 10` value is a digit character. -/
theorem isDigit_digitChar_mod (x : Nat) : (digitChar (x % 10)).isDigit = true :=
  isDigit_digitChar _ (Nat.mod_lt _ (by decide))

/-- Appending one digit multiplies the value by ten and adds the digit. -/
theorem digitsVal_append (l : List Char) (c : Char) :
    digitsVal (l ++ [c]) = digitsVal l * 10 + digitVal c := by
  simp [digitsVal, List.foldl_append]

/-- Dropping trailing zeros preserves the value up to the implied power of
ten, and never lengthens the list. -/
theorem dropTrailingZeroChars_spec (l : List Char) :
    digitsVal (dropTrailingZeroChars l)
        * 10 ^ (l.length - (dropTrailingZeroChars l).length) = digitsVal l ∧
    (dropTrailingZeroChars l).length ≤ l.length := by
  induction l using List.reverseRecOn with
  | nil => simp [dropTrailingZeroChars, digitsVal]
  | append_singleton l a ih =>
    obtain ⟨ih1, ih2⟩ := ih
    by_cases ha : a = '0'
    · subst ha
      have hd : dropTrailingZeroChars (l ++ ['0']) = dropTrailingZeroChars l := by
        simp [dropTrailingZeroChars]
      have hv : digitVal '0' = 0 := by decide
      rw [hd, digitsVal_append, hv, List.length_append]
      constructor
      · have hexp : l.length + 1 - (dropTrailingZeroChars l).length
            = (l.length - (dropTrailingZeroChars l).length) + 1 := by omega
        simp only [List.length_singleton, hexp, pow_succ]
        rw [← mul_assoc, ih1]
        omega
      · simp only [List.length_singleton]
        omega
    · have hd : dropTrailingZeroChars (l ++ [a]) = l ++ [a] := by
        have : (a == '0') = false := by
          simp [ha]
        simp [dropTrailingZeroChars, this]
      rw [hd]
      simp

/-- A list with a nonzero value does not vanish when trailing zeros drop. -/
theorem dropTrailingZeroChars_ne_nil {l : List Char} (h : digitsVal l ≠ 0) :
    dropTrailingZeroChars l ≠ [] := by
  intro h0
  have h1 := (dropTrailingZeroChars_spec l).1
  rw [h0] at h1
  simp [digitsVal] at h1
  exact h h1.symm

/-- Characters surviving the trailing-zero drop come from the original list. -/
theorem mem_dropTrailingZeroChars {l : List Char} {c : Char}
    (h : c ∈ dropTrailingZeroChars l) : c ∈ l := by
  unfold dropTrailingZeroChars at h
  rw [List.mem_reverse] at h
  exact List.mem_reverse.1 (List.dropWhile_subset _ h)

/-- `pad9` renders nine characters. -/
theorem pad9_length (n : Nat) : (pad9 n).length = 9 := by
  simp [pad9]

/-- Every character of `pad9` is a digit. -/
theorem pad9_digits (n : Nat) : ∀ c ∈ pad9 n, c.isDigit = true := by
  intro c hc
  simp only [pad9, List.mem_cons, List.not_mem_nil, or_false] at hc
  rcases hc with rfl | rfl | rfl | rfl | rfl | rfl | rfl | rfl | rfl <;>
    exact isDigit_digitChar_mod _

/-- `pad9` renders exactly the nanosecond value below `10^9`. -/
theorem pad9_val {n : Nat} (h : n < 1000000000) : digitsVal (pad9 n) = n := by
  simp only [pad9, digitsVal, List.foldl_cons, List.foldl_nil, digitVal_digitChar_mod]
  omega

/-- The trimmed fraction of a nonzero nanosecond value scales back to it. -/
theorem frac_digits_roundtrip {n : Nat} (h : n < 1000000000) (hn : n ≠ 0) :
    digitsVal (dropTrailingZeroChars (pad9 n))
        * 10 ^ (9 - (dropTrailingZeroChars (pad9 n)).length) = n ∧
    (dropTrailingZeroChars (pad9 n)).length ≤ 9 ∧
    dropTrailingZeroChars (pad9 n) ≠ [] := by
  have hval := pad9_val h
  have h1 := (dropTrailingZeroChars_spec (pad9 n)).1
  have h2 := (dropTrailingZeroChars_spec (pad9 n)).2
  rw [pad9_length] at h1 h2
  refine ⟨by rw [h1, hval], h2, dropTrailingZeroChars_ne_nil ?_⟩
  rw [hval]
  exact hn

/-- The UTC zone suffix. -/
theorem zoneChars_zero : zoneChars 0 = ['Z'] := rfl

/-- No fraction is rendered for a zero nanosecond count. -/
theorem fracChars_zero : fracChars 0 = [] := rfl

/-- Parsing the bare `Z` suffix: no fraction, UTC offset. -/
theorem parseFracZone_Z : parseFracZone ['Z'] = some (0, 0) := rfl

/-- Parsing the zone letter `Z` gives offset 0. -/
theorem parseZone_Z : parseZone ['Z'] = some 0 := rfl

/-- A valid time's RFC 3339 rendering parses back to the same time. -/
theorem parse_format_roundtrip {t : GoTime} (h : goTimeValid t) :
    parseRFC3339 (formatRFC3339 t) = some t := by
  cases t with
  | mk year month day hour min sec nsec off =>
  unfold goTimeValid at h
  dsimp only at h
  obtain ⟨h1, h2, h3, h4, h5, h6, h7, h8, h9, h10, h11, h12, h13, h14, h15⟩ := h
  subst h15
  unfold parseRFC3339 formatRFC3339
  dsimp only [String.toList]
  simp only [pad4, pad2, zoneChars_zero, List.cons_append, List.nil_append,
    List.append_assoc]
  simp only [parseRFC3339Chars, isDigit_digitChar_mod, Bool.and_self, Bool.true_and,
    if_true]
  simp only [digitVal_digitChar_mod]
  have hY : ((year.toNat / 1000 % 10 * 10 + year.toNat / 100 % 10) * 10
      + year.toNat / 10 % 10) * 10 + year.toNat % 10 = year.toNat := by omega
  have hM : month.toNat / 10 % 10 * 10 + month.toNat % 10 = month.toNat := by omega
  have hdm31 : daysInMonth year month ≤ 31 := by
    unfold daysInMonth
    split_ifs <;> omega
  have hD : day.toNat / 10 % 10 * 10 + day.toNat % 10 = day.toNat := by omega
  have hH : hour.toNat / 10 % 10 * 10 + hour.toNat % 10 = hour.toNat := by omega
  have hMi : min.toNat / 10 % 10 * 10 + min.toNat % 10 = min.toNat := by omega
  have hS : sec.toNat / 10 % 10 * 10 + sec.toNat % 10 = sec.toNat := by omega
  rw [hY, hM, hD, hH, hMi, hS]
  rw [Int.toNat_of_nonneg (show (0:Int) ≤ year by omega),
    Int.toNat_of_nonneg (show (0:Int) ≤ month by omega),
    Int.toNat_of_nonneg (show (0:Int) ≤ day by omega),
    Int.toNat_of_nonneg (show (0:Int) ≤ hour by omega),
    Int.toNat_of_nonneg (show (0:Int) ≤ min by omega),
    Int.toNat_of_nonneg (show (0:Int) ≤ sec by omega)]
  by_cases hns : nsec.toNat = 0
  · simp only [hns, fracChars_zero, List.nil_append, parseFracZone_Z]
    rw [if_pos ⟨h3, h4, h5, h6, h8, h10, h12⟩]
    have hz : nsec = 0 := by omega
    subst hz
    simp
  · have hfr : fracChars nsec.toNat = '.' :: dropTrailingZeroChars (pad9 nsec.toNat) := by
      simp [fracChars, hns]
    obtain ⟨hv, hle, hne⟩ :=
      frac_digits_roundtrip (show nsec.toNat < 1000000000 by omega) hns
    rw [hfr]
    simp only [List.cons_append]
    simp only [parseFracZone]
    have hall : ∀ c ∈ dropTrailingZeroChars (pad9 nsec.toNat), (fun c => c.isDigit) c :=
      fun c hc => pad9_digits _ c (mem_dropTrailingZeroChars hc)
    rw [List.takeWhile_append_of_pos hall, List.dropWhile_append_of_pos hall]
    have hZ1 : List.takeWhile (fun c => c.isDigit) ['Z'] = [] := rfl
    have hZ2 : List.dropWhile (fun c => c.isDigit) ['Z'] = ['Z'] := rfl
    rw [hZ1, hZ2, List.append_nil]
    have hie : (dropTrailingZeroChars (pad9 nsec.toNat)).isEmpty = false := by
      cases hc : dropTrailingZeroChars (pad9 nsec.toNat) with
      | nil => exact absurd hc hne
      | cons a l => rfl
    rw [hie, decide_eq_false
      (by omega : ¬ (9 < (dropTrailingZeroChars (pad9 nsec.toNat)).length))]
    simp only [Bool.or_self, Bool.false_eq_true, if_false, parseZone_Z]
    rw [if_pos ⟨h3, h4, h5, h6, h8, h10, h12⟩, hv, Int.toNat_of_nonneg h13]

/-- Decoding an encoded event recovers it field-for-field. -/
theorem decodeEvent_encodeEvent {e : Event} (h : goTimeValid e.eventDate) :
    decodeEvent (encodeEvent e) = some e := by
  have step : decodeEvent (encodeEvent e) =
      (parseRFC3339 (formatRFC3339 e.eventDate)).bind
        (fun dt => some ⟨e.eventSource, e.eventRef, e.eventType, dt, e.callingNumber,
          e.calledNumber, e.location, e.durationSeconds, e.attr1, e.attr2, e.attr3,
          e.attr4, e.attr5, e.attr6, e.attr7, e.attr8⟩) := rfl
  rw [step, parse_format_roundtrip h]
  rfl

/-- Decoding the encoded list of events recovers the list. -/
theorem decodeEventList_map : ∀ es : List Event,
    (∀ e ∈ es, goTimeValid e.eventDate) →
    decodeEventList (es.map encodeEvent) = some es := by
  intro es
  induction es with
  | nil => intro _; rfl
  | cons e rest ih =>
    intro h
    have he := decodeEvent_encodeEvent (h e (List.mem_cons_self e rest))
    have hr := ih (fun x hx => h x (List.mem_cons_of_mem _ hx))
    simp only [List.map_cons, decodeEventList, he, hr]

/-- C8: serializing a batch of events with the generator's JSON encoding and
deserializing the result with the loader's JSON decoding yields the original
batch, field for field (hence the same multiset), for every batch — in
particular for sizes 0, 1 and 1000 — whose timestamps are valid wall-clock
values. -/
theorem serialize_deserialize_roundtrip (es : List Event)
    (h : ∀ e ∈ es, goTimeValid e.eventDate) :
    jsonUnmarshalEvents (jsonMarshalEvents es) = some es :=
  decodeEventList_map es h

/-- C8 witness: the empty batch and a concrete one-event batch round-trip. -/
theorem serialize_deserialize_roundtrip_witness :
    jsonUnmarshalEvents (jsonMarshalEvents []) = some [] ∧
    jsonUnmarshalEvents (jsonMarshalEvents [sampleEvent]) = some [sampleEvent] :=
  ⟨serialize_deserialize_roundtrip [] (by decide),
    serialize_deserialize_roundtrip [sampleEvent] (by decide)⟩
